import Mathlib

/-!
Verification development for `pytkdocs/parsers/docstrings/restructured_text.py`,
the reStructuredText docstring field-directive parser.

The Python source is shallowly embedded: strings are Lean `String`s, the
Python string methods used by the parser (`lstrip`, `strip`, `rstrip`,
`startswith`, `split`, `join`) are re-implemented below with Python's
semantics, mutable parser state (`self._parsed_values`, `self.errors`)
becomes an explicit `PState` threaded through the handlers, and the one
uncaught exception the module can raise (`IndexError` inside
`_dedent_lines`) is modelled by an `Option` result.

Throughout, `\x27` in string literals is the ASCII apostrophe character that
the source's error messages put around names.
-/

namespace RST

/-- Python whitespace characters recognised by `str.lstrip()` / `str.strip()`
(space, tab, newline, carriage return, vertical tab, form feed). -/
def isPySpace (c : Char) : Bool :=
  c = ' ' || c = '\t' || c = '\n' || c = '\r' || c = Char.ofNat 11 || c = Char.ofNat 12

/-- Python `str.lstrip()`. -/
def pyLstrip (s : String) : String :=
  String.mk (s.data.dropWhile isPySpace)

/-- Python `str.rstrip()`. -/
def pyRstrip (s : String) : String :=
  String.mk ((s.data.reverse.dropWhile isPySpace).reverse)

/-- Python `str.strip()`. -/
def pyStrip (s : String) : String :=
  pyRstrip (pyLstrip s)

/-- Python `str.rstrip("\n")`. -/
def pyRstripNewline (s : String) : String :=
  String.mk ((s.data.reverse.dropWhile (fun c => c = '\n')).reverse)

/-- Python `str.lstrip("*")`. -/
def pyLstripStar (s : String) : String :=
  String.mk (s.data.dropWhile (fun c => c = '*'))

/-- Bool test that the character list `p` starts the character list `s`. -/
def listStartsWith : List Char → List Char → Bool
  | _, [] => true
  | [], _ :: _ => false
  | c :: cs, p :: ps => p = c && listStartsWith cs ps

/-- Python `s.startswith(pre)`. -/
def pyStartswith (s pre : String) : Bool :=
  listStartsWith s.data pre.data

/-- Prepend a character to the first field of a split result (the split
functions below build their output back to front with it). -/
def consHead (c : Char) : List (List Char) → List (List Char)
  | [] => [[c]]
  | f :: fs => (c :: f) :: fs

/-- Python `s.split(c)` for a single-character separator `c`: every
occurrence separates two (possibly empty) fields. -/
def pySplitChar (c : Char) : List Char → List (List Char)
  | [] => [[]]
  | x :: xs => if x = c then [] :: pySplitChar c xs else consHead x (pySplitChar c xs)

/-- Python `s.split(c, m)` for a single-character separator `c` and a
maxsplit bound `m`: at most `m` splits, the remainder is one field. -/
def pySplitCharN (c : Char) : Nat → List Char → List (List Char)
  | _, [] => [[]]
  | 0, x :: xs => [x :: xs]
  | m + 1, x :: xs =>
    if x = c then [] :: pySplitCharN c m xs else consHead x (pySplitCharN c (m + 1) xs)

/-- Python `s.split(ab)` for a two-character separator: non-overlapping
occurrences, scanned left to right. -/
def pySplitChars2 (a b : Char) : List Char → List (List Char)
  | [] => [[]]
  | [x] => [[x]]
  | x :: y :: rest =>
    if x = a && y = b then [] :: pySplitChars2 a b rest
    else consHead x (pySplitChars2 a b (y :: rest))

/-- Python `s.split("or")`, as written in `_consolidate_descriptive_type`. -/
def pySplitOnOr (s : String) : List String :=
  (pySplitChars2 'o' 'r' s.data).map String.mk

/-- Python `s.split("\n")`, as used by `parse_sections`. -/
def pySplitNewlines (s : String) : List String :=
  (pySplitChar '\n' s.data).map String.mk

/-- Python `s.split(" ")`, as used on the directive clause. -/
def pySplitSpace (s : String) : List String :=
  (pySplitChar ' ' s.data).map String.mk

/-- Python `sep.join(xs)`. -/
def pyJoinStr (sep : String) : List String → String
  | [] => ""
  | [x] => x
  | x :: y :: rest => x ++ sep ++ pyJoinStr sep (y :: rest)

/-- Join character-list fields with a separator (used to state what
`split(":", 2)` leaves in its final field). -/
def joinSepChars (sep : List Char) : List (List Char) → List Char
  | [] => []
  | [x] => x
  | x :: y :: rest => x ++ sep ++ joinSepChars sep (y :: rest)

/-- Occurrences of a character in a character list. -/
def countChar (c : Char) : List Char → Nat
  | [] => 0
  | x :: xs => (if x = c then 1 else 0) + countChar c xs

/-- Collapse every field of a full single-character split past position `m`
back into one field: the value of Python `split(c, m)` in terms of the
unbounded `split(c)`. -/
def mergeTail (c : Char) (m : Nat) (fields : List (List Char)) : List (List Char) :=
  if fields.length ≤ m + 1 then fields
  else fields.take m ++ [joinSepChars [c] (fields.drop m)]

/-- `_consolidate_descriptive_type`: rewrite an `or`-joined free-text type
description into `Optional[...]` / `Union[...]`.  Note the source splits on
the two characters `"or"`, not on the word `" or "`. -/
def consolidateDescriptiveType (descriptiveType : String) : String :=
  let types := pySplitOnOr descriptiveType
  if types.length = 1 then descriptiveType
  else
    match types.map pyStrip with
    | [t0, t1] =>
      if t0 = "None" then "Optional[" ++ t1 ++ "]"
      else if t1 = "None" then "Optional[" ++ t0 ++ "]"
      else "Union[" ++ pyJoinStr "," [t0, t1] ++ "]"
    | stripped => "Union[" ++ pyJoinStr "," stripped ++ "]"

/-- A Python value that is either the `inspect` module's `empty` sentinel
("no annotation" / "no default") or an ordinary value, modelled as a
string.  The source's `annotation`, `default` and `kind` slots hold such
values. -/
inductive PyObj where
  | empty : PyObj
  | str : String → PyObj
deriving DecidableEq, Repr

/-- One parameter of an `inspect.Signature`: its `default`, `kind` and
annotation slots (the last is the source's `annotation` attribute, named
`annot` here). -/
structure SigParam where
  default : PyObj
  kind : PyObj
  annot : PyObj
deriving DecidableEq, Repr

/-- An `inspect.Signature`: an insertion-ordered mapping from parameter name
to parameter, plus the return annotation slot (`return_annotation` in the
source, named `returnAnnot` here). -/
structure PySignature where
  parameters : List (String × SigParam)
  returnAnnot : PyObj
deriving DecidableEq, Repr

/-- `ParseContext`: the per-parse read-only view over the caller's context.
`attributes` models `attributes[name].get("annotation")`: a name present in
the list has that annotation, any other lookup gives `none` (the source's
`defaultdict(dict)` makes a missing name yield `{}`, whose `.get` is
`None`).  `annot` is the source's `annotation` field, i.e.
`obj.get("type", empty)`. -/
structure ParseContext where
  attributes : List (String × PyObj)
  signature : Option PySignature
  annot : PyObj
deriving Repr

/-- `ParsedDirective`: a successfully parsed directive occurrence. -/
structure ParsedDirectiveR where
  line : String
  next_index : Nat
  directive_parts : List String
  value : String
deriving DecidableEq, Repr

/-- The sum of `ParsedDirective` and `FailedParsedDirective` (the source
distinguishes them through the `invalid` property). -/
inductive DirectiveResult where
  | ok (d : ParsedDirectiveR)
  | failed (line : String) (next_index : Nat)
deriving DecidableEq, Repr

/-- The resume index carried by either directive-parse outcome. -/
def DirectiveResult.nextIndex : DirectiveResult → Nat
  | .ok d => d.next_index
  | .failed _ n => n

/-- `Parameter` from `pytkdocs.parsers.docstrings.base` as the parser uses
it (the source's `annotation` field is named `annot` here). -/
structure Parameter where
  name : String
  annot : PyObj
  description : String
  default : PyObj
  kind : PyObj
deriving DecidableEq, Repr

/-- `Attribute` from `pytkdocs.parsers.docstrings.base`. -/
structure Attribute where
  name : String
  annot : PyObj
  description : String
deriving DecidableEq, Repr

/-- `AnnotatedObject`: an (annotation, description) pair. -/
structure AnnotatedObject where
  annot : PyObj
  description : String
deriving DecidableEq, Repr

/-- Python `dict.get` on an insertion-ordered association list. -/
def dictGet {β : Type} : List (String × β) → String → Option β
  | [], _ => none
  | (k, v) :: rest, key => if k = key then some v else dictGet rest key

/-- Python `d[key] = value` on an insertion-ordered association list: an
existing key keeps its position, a new key is appended. -/
def dictSet {β : Type} : List (String × β) → String → β → List (String × β)
  | [], key, value => [(key, value)]
  | (k, v) :: rest, key, value =>
    if k = key then (k, value) :: rest else (k, v) :: dictSet rest key value

/-- `ParsedValues`: the per-parse accumulator. -/
structure ParsedValues where
  description : List String
  parameters : List (String × Parameter)
  param_types : List (String × String)
  attributes : List (String × Attribute)
  attribute_types : List (String × String)
  exceptions : List AnnotatedObject
  return_value : Option AnnotatedObject
  return_type : Option String
deriving DecidableEq, Repr

/-- The parser's mutable state during one parse: `self._parsed_values` and
the accumulated `self.errors`. -/
structure PState where
  vals : ParsedValues
  errors : List String
deriving DecidableEq, Repr

/-- `Section`: one tagged output unit (`Section.Type` plus its value). -/
inductive Section where
  | MARKDOWN (text : String)
  | PARAMETERS (params : List Parameter)
  | ATTRIBUTES (attrs : List Attribute)
  | RETURN (v : AnnotatedObject)
  | EXCEPTIONS (excs : List AnnotatedObject)
deriving DecidableEq, Repr

/-- The body of `_consolidate_continuation_lines`' while loop: collect the
left-stripped lines of a suffix up to (excluding) the first line starting
with `:`, together with how many lines were consumed. -/
def consolidateAux : List String → List String × Nat
  | [] => ([], 0)
  | l :: ls =>
    if pyStartswith l ":" then ([], 0)
    else
      let r := consolidateAux ls
      (pyLstrip l :: r.1, r.2 + 1)

/-- `_consolidate_continuation_lines`: join a directive's opening line with
its continuation lines into one logical line, returning it together with
the index of the last line consumed (`curr_line_index - 1` in the source
equals `start_index +` the number of continuation lines). -/
def consolidateContinuationLines (lines : List String) (start_index : Nat) :
    String × Nat :=
  if h : start_index < lines.length then
    let r := consolidateAux (lines.drop (start_index + 1))
    (pyRstripNewline (pyJoinStr " " (pyLstrip (lines.get ⟨start_index, h⟩) :: r.1)),
     start_index + r.2)
  else ("", start_index)

/-- `_parse_directive`: split the joined logical line as
`line.split(":", 2)`; the unpacking `_, directive, value = ...` succeeds
exactly when three parts result, otherwise the `ValueError` is caught, an
error is recorded and a `FailedParsedDirective` is returned. -/
def parseDirective (lines : List String) (start_index : Nat)
    (errors : List String) : DirectiveResult × List String :=
  let r := consolidateContinuationLines lines start_index
  match (pySplitCharN ':' 2 r.1.data).map String.mk with
  | [_, directive, value] =>
    (.ok ⟨r.1, r.2, pySplitSpace directive, pyStrip value⟩, errors)
  | _ =>
    (.failed r.1 r.2,
     errors ++ ["Failed to get \x27:directive: value\x27 pair from \x27" ++ r.1 ++ "\x27"])

/-- `_determine_param_details`: default value and kind from the signature
lookup (the name is looked up with leading `*` stripped). -/
def determineParamDetails (ctx : ParseContext) (name : String) : PyObj × PyObj :=
  match ctx.signature with
  | none => (PyObj.empty, PyObj.empty)
  | some sig =>
    match dictGet sig.parameters (pyLstripStar name) with
    | none => (PyObj.empty, PyObj.empty)
    | some ps =>
      (if ps.default ≠ PyObj.empty then ps.default else PyObj.empty, ps.kind)

/-- `_determine_param_annotation`: resolve a parameter's annotation from the
staged `:type:` value, the inline directive type and the signature, and
record the conflict / missing-parameter errors. -/
def determineParamAnnotation (ctx : ParseContext) (vals : ParsedValues)
    (errors : List String) (name : String) (directiveType : Option String) :
    PyObj × List String :=
  let parsedParamType := dictGet vals.param_types name
  let a1 := match parsedParamType with
    | some t => PyObj.str t
    | none => PyObj.empty
  let a2 := match directiveType with
    | some t => PyObj.str t
    | none => a1
  let errors1 :=
    if directiveType.isSome && parsedParamType.isSome then
      errors ++ ["Duplicate parameter information for \x27" ++ name ++ "\x27"]
    else errors
  match ctx.signature with
  | none => (a2, errors1)
  | some sig =>
    match dictGet sig.parameters (pyLstripStar name) with
    | none => (a2, errors1 ++ ["No matching parameter for \x27" ++ name ++ "\x27"])
    | some ps => (if ps.annot ≠ PyObj.empty then ps.annot else a2, errors1)

/-- The tail of `_read_parameter` once the name (and optional inline type)
have been read off the directive parts. -/
def readParameterNamed (ctx : ParseContext) (st : PState) (d : ParsedDirectiveR)
    (directiveType : Option String) (name : String) : PState × Nat :=
  if (dictGet st.vals.parameters name).isSome then
    ({ st with errors := st.errors ++ ["Duplicate parameter entry for \x27" ++ name ++ "\x27"] },
     d.next_index)
  else
    let ae := determineParamAnnotation ctx st.vals st.errors name directiveType
    let dk := determineParamDetails ctx name
    let newParams := dictSet st.vals.parameters name ⟨name, ae.1, d.value, dk.1, dk.2⟩
    ({ vals := { st.vals with parameters := newParams }, errors := ae.2 },
     d.next_index)

/-- `_read_parameter`. -/
def readParameter (ctx : ParseContext) (lines : List String) (start_index : Nat)
    (st : PState) : PState × Nat :=
  match parseDirective lines start_index st.errors with
  | (.failed _ next, errors) => ({ st with errors }, next)
  | (.ok d, errors) =>
    let st := { st with errors }
    match d.directive_parts with
    | [_, name] => readParameterNamed ctx st d none name
    | [_, ty, name] => readParameterNamed ctx st d (some ty) name
    | _ =>
      ({ st with errors :=
          st.errors ++ ["Failed to parse field directive from \x27" ++ d.line ++ "\x27"] },
       d.next_index)

/-- `_read_parameter_type`. -/
def readParameterType (_ctx : ParseContext) (lines : List String) (start_index : Nat)
    (st : PState) : PState × Nat :=
  match parseDirective lines start_index st.errors with
  | (.failed _ next, errors) => ({ st with errors }, next)
  | (.ok d, errors) =>
    let st := { st with errors }
    let paramType := consolidateDescriptiveType (pyStrip d.value)
    match d.directive_parts with
    | [_, paramName] =>
      let vals1 := { st.vals with param_types := dictSet st.vals.param_types paramName paramType }
      match dictGet vals1.parameters paramName with
      | none => ({ st with vals := vals1 }, d.next_index)
      | some param =>
        if param.annot = PyObj.empty then
          let newParams := dictSet vals1.parameters paramName { param with annot := PyObj.str paramType }
          ({ st with vals := { vals1 with parameters := newParams } }, d.next_index)
        else
          let newErrors := st.errors ++ ["Duplicate parameter information for \x27" ++ paramName ++ "\x27"]
          ({ st with vals := vals1, errors := newErrors }, d.next_index)
    | _ =>
      ({ st with errors :=
          st.errors ++ ["Failed to get parameter name from \x27" ++ d.line ++ "\x27"] },
       d.next_index)

/-- `_read_attribute`. -/
def readAttribute (ctx : ParseContext) (lines : List String) (start_index : Nat)
    (st : PState) : PState × Nat :=
  match parseDirective lines start_index st.errors with
  | (.failed _ next, errors) => ({ st with errors }, next)
  | (.ok d, errors) =>
    let st := { st with errors }
    match d.directive_parts with
    | [_, name] =>
      let a1 := match dictGet st.vals.attribute_types name with
        | some t => PyObj.str t
        | none => PyObj.empty
      let a2 := match dictGet ctx.attributes name with
        | some a => a
        | none => a1
      if (dictGet st.vals.attributes name).isSome then
        ({ st with errors := st.errors ++ ["Duplicate attribute entry for \x27" ++ name ++ "\x27"] },
         d.next_index)
      else
        let newAttrs := dictSet st.vals.attributes name ⟨name, a2, d.value⟩
        ({ st with vals := { st.vals with attributes := newAttrs } }, d.next_index)
    | _ =>
      ({ st with errors :=
          st.errors ++ ["Failed to parse field directive from \x27" ++ d.line ++ "\x27"] },
       d.next_index)

/-- `_read_attribute_type`. -/
def readAttributeType (_ctx : ParseContext) (lines : List String) (start_index : Nat)
    (st : PState) : PState × Nat :=
  match parseDirective lines start_index st.errors with
  | (.failed _ next, errors) => ({ st with errors }, next)
  | (.ok d, errors) =>
    let st := { st with errors }
    let attributeType := consolidateDescriptiveType (pyStrip d.value)
    match d.directive_parts with
    | [_, attributeName] =>
      let newAttrTypes := dictSet st.vals.attribute_types attributeName attributeType
      let vals1 := { st.vals with attribute_types := newAttrTypes }
      match dictGet vals1.attributes attributeName with
      | none => ({ st with vals := vals1 }, d.next_index)
      | some attr =>
        if attr.annot = PyObj.empty then
          let newAttrs := dictSet vals1.attributes attributeName { attr with annot := PyObj.str attributeType }
          ({ st with vals := { vals1 with attributes := newAttrs } }, d.next_index)
        else
          let newErrors := st.errors ++ ["Duplicate attribute information for \x27" ++ attributeName ++ "\x27"]
          ({ st with vals := vals1, errors := newErrors }, d.next_index)
    | _ =>
      ({ st with errors :=
          st.errors ++ ["Failed to get attribute name from \x27" ++ d.line ++ "\x27"] },
       d.next_index)

/-- `_read_exception`. -/
def readException (_ctx : ParseContext) (lines : List String) (start_index : Nat)
    (st : PState) : PState × Nat :=
  match parseDirective lines start_index st.errors with
  | (.failed _ next, errors) => ({ st with errors }, next)
  | (.ok d, errors) =>
    let st := { st with errors }
    match d.directive_parts with
    | [_, exType] =>
      let newExcs := st.vals.exceptions ++ [⟨PyObj.str exType, d.value⟩]
      ({ st with vals := { st.vals with exceptions := newExcs } }, d.next_index)
    | _ =>
      ({ st with errors :=
          st.errors ++ ["Failed to parse exception directive from \x27" ++ d.line ++ "\x27"] },
       d.next_index)

/-- `_read_return` (note: no directive-part count check, and a second
`:returns:` silently overwrites the first). -/
def readReturn (ctx : ParseContext) (lines : List String) (start_index : Nat)
    (st : PState) : PState × Nat :=
  match parseDirective lines start_index st.errors with
  | (.failed _ next, errors) => ({ st with errors }, next)
  | (.ok d, errors) =>
    let st := { st with errors }
    let a :=
      match ctx.signature with
      | some sig =>
        if sig.returnAnnot ≠ PyObj.empty then sig.returnAnnot
        else
          match st.vals.return_type with
          | some rt => PyObj.str rt
          | none => ctx.annot
      | none =>
        match st.vals.return_type with
        | some rt => PyObj.str rt
        | none => ctx.annot
    ({ st with vals := { st.vals with return_value := some ⟨a, d.value⟩ } },
     d.next_index)

/-- `_read_return_type`. -/
def readReturnType (_ctx : ParseContext) (lines : List String) (start_index : Nat)
    (st : PState) : PState × Nat :=
  match parseDirective lines start_index st.errors with
  | (.failed _ next, errors) => ({ st with errors }, next)
  | (.ok d, errors) =>
    let st := { st with errors }
    let returnType := consolidateDescriptiveType (pyStrip d.value)
    let vals1 := { st.vals with return_type := some returnType }
    match vals1.return_value with
    | none => ({ st with vals := vals1 }, d.next_index)
    | some rv =>
      if rv.annot = PyObj.empty then
        let newRv := some { rv with annot := PyObj.str returnType }
        ({ st with vals := { vals1 with return_value := newRv } }, d.next_index)
      else
        let newErrors := st.errors ++ ["Duplicate type information for return"]
        ({ st with vals := vals1, errors := newErrors }, d.next_index)

/-- `FieldType`: a set of directive names bound to a reader. -/
structure FieldType where
  names : List String
  reader : ParseContext → List String → Nat → PState → PState × Nat

/-- `FieldType.matches`: the raw line starts with `:` followed by one of the
names (the line is not stripped first). -/
def FieldType.matches (ft : FieldType) (line : String) : Bool :=
  ft.names.any (fun name => pyStartswith line (":" ++ name))

/-- `PARAM_NAMES`. -/
def PARAM_NAMES : List String := ["param", "parameter", "arg", "argument", "key", "keyword"]

/-- `PARAM_TYPE_NAMES`. -/
def PARAM_TYPE_NAMES : List String := ["type"]

/-- `ATTRIBUTE_NAMES`. -/
def ATTRIBUTE_NAMES : List String := ["var", "ivar", "cvar"]

/-- `ATTRIBUTE_TYPE_NAMES`. -/
def ATTRIBUTE_TYPE_NAMES : List String := ["vartype"]

/-- `RETURN_NAMES`. -/
def RETURN_NAMES : List String := ["returns", "return"]

/-- `RETURN_TYPE_NAMES`. -/
def RETURN_TYPE_NAMES : List String := ["rtype"]

/-- `EXCEPTION_NAMES`. -/
def EXCEPTION_NAMES : List String := ["raises", "raise", "except", "exception"]

/-- `self.field_types`: the registry, in the source's priority order
(typed variants before their base variants). -/
def fieldTypes : List FieldType :=
  [⟨PARAM_TYPE_NAMES, readParameterType⟩,
   ⟨PARAM_NAMES, readParameter⟩,
   ⟨ATTRIBUTE_TYPE_NAMES, readAttributeType⟩,
   ⟨ATTRIBUTE_NAMES, readAttribute⟩,
   ⟨EXCEPTION_NAMES, readException⟩,
   ⟨RETURN_NAMES, readReturn⟩,
   ⟨RETURN_TYPE_NAMES, readReturnType⟩]

/-- `_append_description`: append an unmatched line, except an initial line
equal to `"\n"` (which no line produced by `split("\n")` can be). -/
def appendDescription (pv : ParsedValues) (line : String) : ParsedValues :=
  if !pv.description.isEmpty || line ≠ "\n" then
    { pv with description := pv.description ++ [line] }
  else pv

/-- `_dedent_lines`.  The guard `if lines:` returns the lines unchanged
whenever the list is non-empty, so the dedent loop below it is unreachable;
when the list is empty, `lines[0]` raises `IndexError`, modelled as `none`. -/
def dedentLines (lines : List String) (errors : List String) :
    Option (List String × List String) :=
  if lines.isEmpty then none else some (lines, errors)

/-- The while loop of `parse_sections`, with an explicit fuel argument: each
iteration reads `lines[i]`, dispatches to the first matching field type (or
accumulates description) and advances one line past the returned index.
`parseSections` runs it with fuel `lines.length`, which suffices because the
cursor strictly increases. -/
def parseLoop (ctx : ParseContext) (lines : List String) :
    Nat → Nat → PState → PState
  | 0, _, st => st
  | fuel + 1, i, st =>
    if h : i < lines.length then
      let line := lines.get ⟨i, h⟩
      match List.find? (fun ft => ft.matches line) fieldTypes with
      | some ft =>
        let r := ft.reader ctx lines i st
        parseLoop ctx lines fuel (r.2 + 1) r.1
      | none =>
        parseLoop ctx lines fuel (i + 1) { st with vals := appendDescription st.vals line }
    else st

/-- `_parsed_values_to_sections`: the MARKDOWN section is always emitted
(its text may be empty); the other sections are appended in the fixed order
PARAMETERS, ATTRIBUTES, RETURN, EXCEPTIONS, each only when non-empty.  The
`none` outcome is the `IndexError` escaping from `_dedent_lines`. -/
def parsedValuesToSections (st : PState) : Option (List Section × List String) :=
  match dedentLines st.vals.description st.errors with
  | none => none
  | some dl =>
    let markdownText := pyJoinStr "\n" dl.1
    let pv := st.vals
    let result := [Section.MARKDOWN markdownText]
      ++ (if pv.parameters.isEmpty then [] else [Section.PARAMETERS (pv.parameters.map Prod.snd)])
      ++ (if pv.attributes.isEmpty then [] else [Section.ATTRIBUTES (pv.attributes.map Prod.snd)])
      ++ (match pv.return_value with
          | some rv => [Section.RETURN rv]
          | none => [])
      ++ (if pv.exceptions.isEmpty then [] else [Section.EXCEPTIONS pv.exceptions])
    some (result, dl.2)

/-- The fresh accumulator state at the start of `parse_sections`
(`ParsedValues()` and an empty error list). -/
def initPState : PState :=
  ⟨⟨[], [], [], [], [], [], none, none⟩, []⟩

/-- `parse_sections`: split the docstring on newlines, run the scan loop and
assemble sections.  `none` models the `IndexError` raised by
`_dedent_lines` when the accumulated description is empty. -/
def parseSections (ctx : ParseContext) (docstring : String) :
    Option (List Section × List String) :=
  let lines := pySplitNewlines docstring
  parsedValuesToSections (parseLoop ctx lines lines.length 0 initPState)

/-- The context built from an empty context dictionary (`ParseContext({})`):
no attributes, no signature, `annotation = empty`. -/
def emptyContext : ParseContext :=
  ⟨[], none, PyObj.empty⟩

/-- Position of a section's type in the output order fixed by the spec:
MARKDOWN, PARAMETERS, ATTRIBUTES, RETURN, EXCEPTIONS. -/
def sectionRank : Section → Nat
  | .MARKDOWN _ => 0
  | .PARAMETERS _ => 1
  | .ATTRIBUTES _ => 2
  | .RETURN _ => 3
  | .EXCEPTIONS _ => 4

/-- Modelled from the spec (§4.1, Continuation-Line Joiner contract): the
left-stripped opening line joined with single spaces to every immediately
following left-stripped line that does not begin with `:`, trailing newline
characters stripped from the joined result, together with the index of the
last line consumed; out of bounds gives the empty line and the unchanged
index. -/
def continuationJoinerSpec (lines : List String) (start : Nat) : String × Nat :=
  if h : start < lines.length then
    let cont := (lines.drop (start + 1)).takeWhile (fun l => !(pyStartswith l ":"))
    (pyRstripNewline (pyJoinStr " " (pyLstrip (lines.get ⟨start, h⟩) :: cont.map pyLstrip)),
     start + cont.length)
  else ("", start)

/-- Modelled from the spec (§4.2, Directive Splitter contract, amended):
fail exactly when the logical line holds fewer than two `:` characters;
otherwise the directive-name clause is everything between the first and the
second `:` split on the space character, and the value is everything after
the second `:` stripped of surrounding whitespace. -/
def parseDirectiveSpec (lines : List String) (start : Nat) (errors : List String) :
    DirectiveResult × List String :=
  let r := consolidateContinuationLines lines start
  if 2 ≤ countChar ':' r.1.data then
    match pySplitChar ':' r.1.data with
    | _ :: clause :: rest =>
      (.ok ⟨r.1, r.2, (pySplitChar ' ' clause).map String.mk,
            pyStrip (String.mk (joinSepChars [':'] rest))⟩, errors)
    | _ =>
      (.failed r.1 r.2,
       errors ++ ["Failed to get \x27:directive: value\x27 pair from \x27" ++ r.1 ++ "\x27"])
  else
    (.failed r.1 r.2,
     errors ++ ["Failed to get \x27:directive: value\x27 pair from \x27" ++ r.1 ++ "\x27"])

/-- Modelled from the spec (§4.5): the annotation a parameter receives from
the sources below the signature, in precedence order — the inline directive
type, then the staged `:type:` directive value, then the sentinel. -/
def paramAnnotFallback (vals : ParsedValues) (name : String)
    (directiveType : Option String) : PyObj :=
  match directiveType with
  | some t => PyObj.str t
  | none =>
    match dictGet vals.param_types name with
    | some t => PyObj.str t
    | none => PyObj.empty

/-- Modelled from the spec (§4.5, annotation precedence): the signature's
annotation for the name with leading `*` stripped, when present and not the
sentinel, else the fallback chain. -/
def paramAnnotSpec (ctx : ParseContext) (vals : ParsedValues) (name : String)
    (directiveType : Option String) : PyObj :=
  match ctx.signature with
  | some sig =>
    match dictGet sig.parameters (pyLstripStar name) with
    | some ps =>
      if ps.annot ≠ PyObj.empty then ps.annot
      else paramAnnotFallback vals name directiveType
    | none => paramAnnotFallback vals name directiveType
  | none => paramAnnotFallback vals name directiveType

/-- Modelled from the spec (§4.7): the annotation an attribute receives
when the context supplies none — the staged `:vartype:` value when one was
registered, else the sentinel. -/
def attrAnnotFallback (vals : ParsedValues) (name : String) : PyObj :=
  match dictGet vals.attribute_types name with
  | some t => PyObj.str t
  | none => PyObj.empty

/-- A concrete context used to witness the attribute-handling theorem: the
caller knows an annotation for attribute `y` only. -/
def exampleAttrContext : ParseContext :=
  ⟨[("y", PyObj.str "int")], none, PyObj.empty⟩

/-- A concrete parser state used to witness the attribute-handling theorem:
a `:vartype: x` value `"int"` is already staged, no attribute read yet. -/
def exampleAttrState : PState :=
  ⟨⟨[], [], [], [], [("x", "int")], [], none, none⟩, []⟩

/-- A concrete parser state used to witness the section-assembly theorem:
one description line and one exception were accumulated. -/
def exampleSectionState : PState :=
  ⟨⟨["desc"], [], [], [], [], [⟨PyObj.str "E", "boom"⟩], none, none⟩, []⟩

theorem consolidateAux_eq (rest : List String) :
    consolidateAux rest =
      ((rest.takeWhile (fun l => !(pyStartswith l ":"))).map pyLstrip,
       (rest.takeWhile (fun l => !(pyStartswith l ":"))).length) := by
  induction rest with
  | nil => simp [consolidateAux]
  | cons l ls ih =>
    cases h : pyStartswith l ":" with
    | true => simp [consolidateAux, h, List.takeWhile_cons]
    | false => simp [consolidateAux, h, List.takeWhile_cons, ih]

theorem consolidateContinuationLines_snd_ge (lines : List String) (i : Nat) :
    i ≤ (consolidateContinuationLines lines i).2 := by
  unfold consolidateContinuationLines
  split
  · simp
  · simp

theorem parseDirective_nextIndex (lines : List String) (i : Nat) (errors : List String) :
    (parseDirective lines i errors).1.nextIndex = (consolidateContinuationLines lines i).2 := by
  unfold parseDirective
  dsimp only
  split <;> rfl

theorem parseDirective_nextIndex_ge (lines : List String) (i : Nat) (errors : List String) :
    i ≤ (parseDirective lines i errors).1.nextIndex := by
  rw [parseDirective_nextIndex]
  exact consolidateContinuationLines_snd_ge lines i

theorem readParameterNamed_snd (ctx : ParseContext) (st : PState) (d : ParsedDirectiveR)
    (directiveType : Option String) (name : String) :
    (readParameterNamed ctx st d directiveType name).2 = d.next_index := by
  unfold readParameterNamed
  split <;> rfl

theorem readParameter_snd (ctx : ParseContext) (lines : List String) (i : Nat) (st : PState) :
    (readParameter ctx lines i st).2 = (parseDirective lines i st.errors).1.nextIndex := by
  unfold readParameter
  split
  · rename_i heq
    rw [heq]
    rfl
  · rename_i d errors heq
    rw [heq]
    dsimp only
    split
    · rw [readParameterNamed_snd]
      rfl
    · rw [readParameterNamed_snd]
      rfl
    · rfl

theorem readParameterType_snd (ctx : ParseContext) (lines : List String) (i : Nat) (st : PState) :
    (readParameterType ctx lines i st).2 = (parseDirective lines i st.errors).1.nextIndex := by
  unfold readParameterType
  split
  · rename_i heq
    rw [heq]
    rfl
  · rename_i d errors heq
    rw [heq]
    dsimp only
    repeat' split
    all_goals rfl

theorem readAttribute_snd (ctx : ParseContext) (lines : List String) (i : Nat) (st : PState) :
    (readAttribute ctx lines i st).2 = (parseDirective lines i st.errors).1.nextIndex := by
  unfold readAttribute
  split
  · rename_i heq
    rw [heq]
    rfl
  · rename_i d errors heq
    rw [heq]
    dsimp only
    repeat' split
    all_goals rfl

theorem readAttributeType_snd (ctx : ParseContext) (lines : List String) (i : Nat) (st : PState) :
    (readAttributeType ctx lines i st).2 = (parseDirective lines i st.errors).1.nextIndex := by
  unfold readAttributeType
  split
  · rename_i heq
    rw [heq]
    rfl
  · rename_i d errors heq
    rw [heq]
    dsimp only
    repeat' split
    all_goals rfl

theorem readException_snd (ctx : ParseContext) (lines : List String) (i : Nat) (st : PState) :
    (readException ctx lines i st).2 = (parseDirective lines i st.errors).1.nextIndex := by
  unfold readException
  split
  · rename_i heq
    rw [heq]
    rfl
  · rename_i d errors heq
    rw [heq]
    dsimp only
    repeat' split
    all_goals rfl

theorem readReturn_snd (ctx : ParseContext) (lines : List String) (i : Nat) (st : PState) :
    (readReturn ctx lines i st).2 = (parseDirective lines i st.errors).1.nextIndex := by
  unfold readReturn
  split
  · rename_i heq
    rw [heq]
    rfl
  · rename_i d errors heq
    rw [heq]
    rfl

theorem readReturnType_snd (ctx : ParseContext) (lines : List String) (i : Nat) (st : PState) :
    (readReturnType ctx lines i st).2 = (parseDirective lines i st.errors).1.nextIndex := by
  unfold readReturnType
  split
  · rename_i heq
    rw [heq]
    rfl
  · rename_i d errors heq
    rw [heq]
    dsimp only
    repeat' split
    all_goals rfl

theorem parseLoop_past_end (ctx : ParseContext) (lines : List String) (fuel i : Nat)
    (st : PState) (h : lines.length ≤ i) : parseLoop ctx lines fuel i st = st := by
  cases fuel with
  | zero => rfl
  | succ n =>
    simp only [parseLoop]
    rw [dif_neg (Nat.not_lt.mpr h)]

theorem fieldTypes_reader_snd_ge (ft : FieldType) (hft : ft ∈ fieldTypes)
    (ctx : ParseContext) (lines : List String) (i : Nat) (st : PState) :
    i ≤ (ft.reader ctx lines i st).2 := by
  simp only [fieldTypes, List.mem_cons, List.not_mem_nil, or_false] at hft
  rcases hft with rfl | rfl | rfl | rfl | rfl | rfl | rfl <;>
    simp only [FieldType.reader, readParameterType_snd, readParameter_snd,
      readAttributeType_snd, readAttribute_snd, readException_snd, readReturn_snd,
      readReturnType_snd] <;>
    exact parseDirective_nextIndex_ge lines i st.errors

theorem readParameterNamed_description (ctx : ParseContext) (st : PState)
    (d : ParsedDirectiveR) (directiveType : Option String) (name : String) :
    ((readParameterNamed ctx st d directiveType name).1).vals.description =
      st.vals.description := by
  unfold readParameterNamed
  split <;> rfl

theorem readParameter_description (ctx : ParseContext) (lines : List String) (i : Nat)
    (st : PState) :
    ((readParameter ctx lines i st).1).vals.description = st.vals.description := by
  unfold readParameter
  split
  · rfl
  · dsimp only
    split
    · rw [readParameterNamed_description]
    · rw [readParameterNamed_description]
    · rfl

theorem readParameterType_description (ctx : ParseContext) (lines : List String) (i : Nat)
    (st : PState) :
    ((readParameterType ctx lines i st).1).vals.description = st.vals.description := by
  unfold readParameterType
  split
  · rfl
  · dsimp only
    repeat' split
    all_goals rfl

theorem readAttribute_description (ctx : ParseContext) (lines : List String) (i : Nat)
    (st : PState) :
    ((readAttribute ctx lines i st).1).vals.description = st.vals.description := by
  unfold readAttribute
  split
  · rfl
  · dsimp only
    repeat' split
    all_goals rfl

theorem readAttributeType_description (ctx : ParseContext) (lines : List String) (i : Nat)
    (st : PState) :
    ((readAttributeType ctx lines i st).1).vals.description = st.vals.description := by
  unfold readAttributeType
  split
  · rfl
  · dsimp only
    repeat' split
    all_goals rfl

theorem readException_description (ctx : ParseContext) (lines : List String) (i : Nat)
    (st : PState) :
    ((readException ctx lines i st).1).vals.description = st.vals.description := by
  unfold readException
  split
  · rfl
  · dsimp only
    repeat' split
    all_goals rfl

theorem readReturn_description (ctx : ParseContext) (lines : List String) (i : Nat)
    (st : PState) :
    ((readReturn ctx lines i st).1).vals.description = st.vals.description := by
  unfold readReturn
  split
  · rfl
  · rfl

theorem readReturnType_description (ctx : ParseContext) (lines : List String) (i : Nat)
    (st : PState) :
    ((readReturnType ctx lines i st).1).vals.description = st.vals.description := by
  unfold readReturnType
  split
  · rfl
  · dsimp only
    repeat' split
    all_goals rfl

theorem fieldTypes_reader_description (ft : FieldType) (hft : ft ∈ fieldTypes)
    (ctx : ParseContext) (lines : List String) (i : Nat) (st : PState) :
    ((ft.reader ctx lines i st).1).vals.description = st.vals.description := by
  simp only [fieldTypes, List.mem_cons, List.not_mem_nil, or_false] at hft
  rcases hft with rfl | rfl | rfl | rfl | rfl | rfl | rfl <;>
    simp only [FieldType.reader, readParameterType_description, readParameter_description,
      readAttributeType_description, readAttribute_description, readException_description,
      readReturn_description, readReturnType_description]

theorem parseLoop_fuel (ctx : ParseContext) (lines : List String) :
    ∀ k i st extra, lines.length - i = k →
      parseLoop ctx lines (k + extra) i st = parseLoop ctx lines k i st := by
  intro k
  induction k using Nat.strong_induction_on with
  | _ k ih =>
    intro i st extra hk
    cases k with
    | zero =>
      have hi : lines.length ≤ i := by omega
      rw [parseLoop_past_end ctx lines (0 + extra) i st hi,
          parseLoop_past_end ctx lines 0 i st hi]
    | succ m =>
      have hi : i < lines.length := by omega
      rw [show m + 1 + extra = (m + extra) + 1 by omega]
      simp only [parseLoop]
      rw [dif_pos hi, dif_pos hi]
      cases hfind : List.find? (fun ft => ft.matches (lines.get ⟨i, hi⟩)) fieldTypes with
      | none =>
        dsimp only
        exact ih m (by omega) (i + 1) _ extra (by omega)
      | some ft =>
        have hge : i ≤ (ft.reader ctx lines i st).2 :=
          fieldTypes_reader_snd_ge ft (List.mem_of_find?_eq_some hfind) ctx lines i st
        dsimp only
        set j := (ft.reader ctx lines i st).2 + 1 with hj
        set st1 := (ft.reader ctx lines i st).1 with hst1
        have hjm : lines.length - j ≤ m := by omega
        have e1 : m + extra = (lines.length - j) + (m + extra - (lines.length - j)) := by omega
        have e2 : m = (lines.length - j) + (m - (lines.length - j)) := by omega
        rw [e1, ih (lines.length - j) (by omega) j st1 _ rfl,
            e2, ih (lines.length - j) (by omega) j st1 _ rfl]

theorem consHead_ne_nil (x : Char) (l : List (List Char)) : consHead x l ≠ [] := by
  cases l <;> simp [consHead]

theorem pySplitChar_ne_nil (c : Char) (s : List Char) : pySplitChar c s ≠ [] := by
  induction s with
  | nil => simp [pySplitChar]
  | cons x xs ih =>
    simp only [pySplitChar]
    split
    · simp
    · exact consHead_ne_nil x _

theorem joinSepChars_splitChar (c : Char) (s : List Char) :
    joinSepChars [c] (pySplitChar c s) = s := by
  induction s with
  | nil => rfl
  | cons x xs ih =>
    simp only [pySplitChar]
    split
    · rename_i hx
      cases h : pySplitChar c xs with
      | nil => exact absurd h (pySplitChar_ne_nil c xs)
      | cons f fs =>
        rw [h] at ih
        simp [joinSepChars, ih, hx]
    · rename_i hx
      cases h : pySplitChar c xs with
      | nil => exact absurd h (pySplitChar_ne_nil c xs)
      | cons f fs =>
        rw [h] at ih
        cases fs with
        | nil =>
          simp only [joinSepChars] at ih
          simp [consHead, joinSepChars, ih]
        | cons g gs =>
          simp only [joinSepChars] at ih
          simp [consHead, joinSepChars, ← ih]

theorem pySplitChar_length (c : Char) (s : List Char) :
    (pySplitChar c s).length = countChar c s + 1 := by
  induction s with
  | nil => simp [pySplitChar, countChar]
  | cons x xs ih =>
    simp only [pySplitChar, countChar]
    split
    · simp only [List.length_cons, ih]
      omega
    · cases h : pySplitChar c xs with
      | nil => exact absurd h (pySplitChar_ne_nil c xs)
      | cons f fs =>
        rw [h] at ih
        simp only [consHead, List.length_cons] at ih ⊢
        omega

theorem mergeTail_cons_nil (c : Char) (m : Nat) (l : List (List Char)) :
    mergeTail c (m + 1) ([] :: l) = [] :: mergeTail c m l := by
  simp only [mergeTail, List.length_cons]
  by_cases h : l.length ≤ m + 1
  · rw [if_pos (by omega), if_pos h]
  · rw [if_neg (by omega), if_neg h]
    rfl

theorem mergeTail_consHead (c : Char) (m : Nat) (x : Char) (l : List (List Char))
    (hl : l ≠ []) :
    mergeTail c (m + 1) (consHead x l) = consHead x (mergeTail c (m + 1) l) := by
  cases l with
  | nil => exact absurd rfl hl
  | cons g gs =>
    simp only [consHead, mergeTail, List.length_cons]
    by_cases h : gs.length + 1 ≤ m + 2
    · rw [if_pos (by omega), if_pos (by omega)]
    · rw [if_neg (by omega), if_neg (by omega)]
      simp [List.take_succ_cons, List.drop_succ_cons, consHead]

theorem pySplitCharN_eq_mergeTail (c : Char) (s : List Char) :
    ∀ m : Nat, pySplitCharN c m s = mergeTail c m (pySplitChar c s) := by
  induction s with
  | nil => intro m; simp [pySplitCharN, pySplitChar, mergeTail]
  | cons x xs ih =>
    intro m
    cases m with
    | zero =>
      simp only [pySplitCharN, mergeTail]
      cases h : pySplitChar c (x :: xs) with
      | nil => exact absurd h (pySplitChar_ne_nil _ _)
      | cons f fs =>
        have hj := joinSepChars_splitChar c (x :: xs)
        rw [h] at hj
        cases fs with
        | nil =>
          simp only [joinSepChars] at hj
          simp [hj]
        | cons g gs =>
          rw [if_neg (by simp)]
          simp [hj]
    | succ m' =>
      simp only [pySplitChar, pySplitCharN]
      split
      · rw [ih m', mergeTail_cons_nil]
      · rw [ih (m' + 1), mergeTail_consHead c m' x _ (pySplitChar_ne_nil c xs)]

/-- C1: the claim says `parse_sections` completes normally on every
docstring and context, in particular on a docstring whose every line is a
field directive.  It does not: on such a docstring the description list is
empty and `_dedent_lines` evaluates `lines[0]` on an empty list, raising
`IndexError` (modelled as `none`), so the parse aborts instead of returning
a section list. -/
theorem C1_parse_aborts_on_directive_only_docstring :
    parseSections emptyContext ":param x: desc" = none := by
  rfl

/-- C2: the claim says the Type Consolidator splits on the literal
substring `" or "` so that `"Iterator"` is returned unchanged.  The listed
examples do hold, but the source splits on the two characters `"or"`
anywhere in the text, so `"Iterator"` is mangled into `"Union[Iterat,]"`
instead of being returned unchanged. -/
theorem C2_consolidate_splits_inside_words :
    consolidateDescriptiveType "int or str" = "Union[int,str]" ∧
    consolidateDescriptiveType "None or str" = "Optional[str]" ∧
    consolidateDescriptiveType "str or None" = "Optional[str]" ∧
    consolidateDescriptiveType "int or str or float" = "Union[int,str,float]" ∧
    consolidateDescriptiveType "int" = "int" ∧
    consolidateDescriptiveType "Iterator" = "Union[Iterat,]" :=
  ⟨rfl, rfl, rfl, rfl, rfl, rfl⟩

/-- C3: the claim says `_dedent_lines` strips the first line's indentation
width from every matching line (`["    a", "    b"]` becomes `["a", "b"]`)
and records an error for a non-matching line.  The source's guard
`if lines:` returns every non-empty list unchanged with no error, so no
dedenting ever happens, and the empty list reaches `lines[0]` and raises
`IndexError` (modelled as `none`). -/
theorem C3_dedent_returns_lines_unchanged :
    dedentLines ["    a", "    b"] [] = some (["    a", "    b"], []) ∧
    dedentLines ["    a", "b"] [] = some (["    a", "b"], []) ∧
    dedentLines [] [] = none :=
  ⟨rfl, rfl, rfl⟩

/-- C5 counterexample: the claim says a line matches a field type if and
only if the *stripped* line begins with `:` followed by one of the names.
The indented line `"   :param x: d"` strips to a line beginning with
`":param"`, yet `FieldType.matches` (which never strips) rejects it, so
the claimed equivalence is false. -/
theorem C5_counterexample_indented_directive :
    FieldType.matches ⟨PARAM_NAMES, readParameter⟩ "   :param x: d" = false ∧
    pyStartswith (pyStrip "   :param x: d") ":param" = true :=
  ⟨rfl, rfl⟩

/-- C5 (amended): a line matches a field type if and only if the raw line
itself (no stripping) begins with `:` followed by one of the field type's
names; a line matched by no field type is handed to `_append_description`
by the driver, which then advances to the next line; and only those lines
reach the description — every registered reader leaves the accumulated
description untouched, so a matched line is never accumulated as
description text. -/
theorem C5_matches_unstripped_and_unmatched_to_description :
    (∀ (ft : FieldType) (line : String),
      ft.matches line = true ↔ ∃ name ∈ ft.names, pyStartswith line (":" ++ name) = true) ∧
    (∀ (ctx : ParseContext) (lines : List String) (fuel i : Nat) (st : PState)
      (h : i < lines.length),
      List.find? (fun ft => ft.matches (lines.get ⟨i, h⟩)) fieldTypes = none →
      parseLoop ctx lines (fuel + 1) i st =
        parseLoop ctx lines fuel (i + 1)
          { st with vals := appendDescription st.vals (lines.get ⟨i, h⟩) }) ∧
    (∀ ft ∈ fieldTypes, ∀ (ctx : ParseContext) (lines : List String) (i : Nat) (st : PState),
      ((ft.reader ctx lines i st).1).vals.description = st.vals.description) := by
  refine ⟨?_, ?_, ?_⟩
  · intro ft line
    simp [FieldType.matches, List.any_eq_true]
  · intro ctx lines fuel i st h hfind
    simp only [parseLoop]
    rw [dif_pos h, hfind]
  · intro ft hft ctx lines i st
    exact fieldTypes_reader_description ft hft ctx lines i st

/-- C5 witness: the amended theorem applied at concrete inputs — an
unmatched plain line is appended to the description, and the parameter
reader run on a matched directive line leaves the description untouched. -/
theorem C5_witness_plain_line_accumulated :
    (parseLoop emptyContext ["hello"] 1 0 initPState =
      parseLoop emptyContext ["hello"] 0 1
        { initPState with vals := appendDescription initPState.vals "hello" }) ∧
    ((FieldType.reader ⟨PARAM_NAMES, readParameter⟩ emptyContext [":param x: d"] 0
        initPState).1).vals.description = initPState.vals.description :=
  ⟨C5_matches_unstripped_and_unmatched_to_description.2.1 emptyContext ["hello"] 0 0
     initPState (by decide) rfl,
   C5_matches_unstripped_and_unmatched_to_description.2.2 ⟨PARAM_NAMES, readParameter⟩
     (List.mem_cons_of_mem _ (List.mem_cons_self _ _)) emptyContext [":param x: d"] 0
     initPState⟩

/-- C7: the Continuation-Line Joiner returns the left-stripped opening line
joined with single spaces to every immediately following left-stripped line
that does not begin with `:` (trailing newline characters stripped from the
joined result, per the spec's §4.1), together with the index of the last
line consumed; an out-of-bounds start index gives the empty line and the
unchanged index. -/
theorem C7_continuation_joiner_contract (lines : List String) (start : Nat) :
    consolidateContinuationLines lines start = continuationJoinerSpec lines start := by
  unfold consolidateContinuationLines continuationJoinerSpec
  split
  · simp [consolidateAux_eq]
  · rfl

/-- C9: every handler returns a resume index at least its start index (each
returns the continuation joiner's last-consumed index), and therefore the
scan loop never needs more fuel than the number of remaining lines: running
`parseLoop` with any extra fuel beyond `lines.length - i` changes nothing,
so the scan terminates within the length of the input line sequence. -/
theorem C9_cursor_monotonic_and_terminating :
    (∀ ctx lines i st, i ≤ (readParameterType ctx lines i st).2) ∧
    (∀ ctx lines i st, i ≤ (readParameter ctx lines i st).2) ∧
    (∀ ctx lines i st, i ≤ (readAttributeType ctx lines i st).2) ∧
    (∀ ctx lines i st, i ≤ (readAttribute ctx lines i st).2) ∧
    (∀ ctx lines i st, i ≤ (readException ctx lines i st).2) ∧
    (∀ ctx lines i st, i ≤ (readReturn ctx lines i st).2) ∧
    (∀ ctx lines i st, i ≤ (readReturnType ctx lines i st).2) ∧
    (∀ ctx lines i st extra,
      parseLoop ctx lines (lines.length - i + extra) i st =
        parseLoop ctx lines (lines.length - i) i st) := by
  refine ⟨?_, ?_, ?_, ?_, ?_, ?_, ?_, ?_⟩
  · intro ctx lines i st
    rw [readParameterType_snd]
    exact parseDirective_nextIndex_ge lines i st.errors
  · intro ctx lines i st
    rw [readParameter_snd]
    exact parseDirective_nextIndex_ge lines i st.errors
  · intro ctx lines i st
    rw [readAttributeType_snd]
    exact parseDirective_nextIndex_ge lines i st.errors
  · intro ctx lines i st
    rw [readAttribute_snd]
    exact parseDirective_nextIndex_ge lines i st.errors
  · intro ctx lines i st
    rw [readException_snd]
    exact parseDirective_nextIndex_ge lines i st.errors
  · intro ctx lines i st
    rw [readReturn_snd]
    exact parseDirective_nextIndex_ge lines i st.errors
  · intro ctx lines i st
    rw [readReturnType_snd]
    exact parseDirective_nextIndex_ge lines i st.errors
  · intro ctx lines i st extra
    exact parseLoop_fuel ctx lines (lines.length - i) i st extra rfl

/-- C6: `_determine_param_annotation` resolves the annotation with the
precedence signature annotation (looked up with leading `*` stripped, and
only when it is not the sentinel) over inline directive type over staged
`:type:` directive value over the sentinel; it appends the conflict error
exactly when both an inline type and a staged type exist, and the
missing-parameter error exactly when a signature is present but has no
entry for the stripped name (resolution then falling through to the
remaining sources). -/
theorem C6_param_annot_resolution (ctx : ParseContext) (vals : ParsedValues)
    (errors : List String) (name : String) (directiveType : Option String) :
    determineParamAnnotation ctx vals errors name directiveType =
      (paramAnnotSpec ctx vals name directiveType,
       (if directiveType.isSome && (dictGet vals.param_types name).isSome then
          errors ++ ["Duplicate parameter information for \x27" ++ name ++ "\x27"]
        else errors)
       ++ (match ctx.signature with
           | none => []
           | some sig =>
             match dictGet sig.parameters (pyLstripStar name) with
             | none => ["No matching parameter for \x27" ++ name ++ "\x27"]
             | some _ => [])) := by
  unfold determineParamAnnotation paramAnnotSpec paramAnnotFallback
  dsimp only
  cases hs : ctx.signature with
  | none =>
    cases directiveType <;> cases hpt : dictGet vals.param_types name <;> simp [hpt]
  | some sig =>
    cases hg : dictGet sig.parameters (pyLstripStar name) with
    | none =>
      cases directiveType <;> cases hpt : dictGet vals.param_types name <;> simp [hpt, hg]
    | some ps =>
      by_cases ha : ps.annot = PyObj.empty <;>
        cases directiveType <;> cases hpt : dictGet vals.param_types name <;>
        simp [hpt, hg, ha]

/-- C8 counterexample: the claim says the directive-name clause is split on
whitespace with runs of whitespace producing no empty tokens, so the clause
`"param  x"` (two spaces) would give `["param", "x"]`.  The source splits
on the single space character, producing the empty token `""` in the
middle. -/
theorem C8_counterexample_double_space_clause :
    parseDirective [":param  x: d"] 0 [] =
      (DirectiveResult.ok ⟨":param  x: d", 0, ["param", "", "x"], "d"⟩, []) := by
  rfl

/-- C8 (amended): `_parse_directive` fails, recording an error and carrying
only the line text and resume index, exactly when the logical line contains
fewer than two `:` characters; on success the directive-name clause
(between the first and second `:`) is split on the space character (runs of
spaces produce empty tokens) and the value (everything after the second
`:`) is stripped of leading and trailing whitespace. -/
theorem C8_parse_directive_contract (lines : List String) (start : Nat)
    (errors : List String) :
    parseDirective lines start errors = parseDirectiveSpec lines start errors := by
  unfold parseDirective parseDirectiveSpec
  dsimp only
  rw [pySplitCharN_eq_mergeTail]
  have hlen := pySplitChar_length ':' (consolidateContinuationLines lines start).1.data
  rcases h3 : pySplitChar ':' (consolidateContinuationLines lines start).1.data with
    _ | ⟨a, _ | ⟨b, _ | ⟨c0, rest⟩⟩⟩
  · exact absurd h3 (pySplitChar_ne_nil _ _)
  · rw [h3] at hlen
    have hc : countChar ':' (consolidateContinuationLines lines start).1.data = 0 := by
      simpa using hlen.symm
    rw [hc]
    simp [mergeTail]
  · rw [h3] at hlen
    have hc : countChar ':' (consolidateContinuationLines lines start).1.data = 1 := by
      simpa using hlen.symm
    rw [hc]
    simp [mergeTail]
  · rw [h3] at hlen
    have hc : countChar ':' (consolidateContinuationLines lines start).1.data =
        rest.length + 2 := by
      simp only [List.length_cons] at hlen
      omega
    rw [hc]
    rw [if_pos (by omega)]
    cases rest with
    | nil => simp [mergeTail, joinSepChars, pySplitSpace]
    | cons g gs =>
      rw [show mergeTail ':' 2 (a :: b :: c0 :: g :: gs) =
            [a, b, joinSepChars [':'] (c0 :: g :: gs)] by
          simp [mergeTail, List.length_cons]]
      simp [pySplitSpace]

/-- C4 counterexample: the claim says every section with no content is
omitted entirely.  Parsing the empty docstring accumulates the single empty
description line, and the assembler emits a MARKDOWN section whose text is
empty — a contentless section that is not omitted. -/
theorem C4_counterexample_empty_markdown_kept :
    parseSections emptyContext "" = some ([Section.MARKDOWN ""], []) := by
  rfl

/-- C4 (amended): whenever the assembler returns (that is, whenever the
accumulated description is non-empty), the sections appear in the fixed
order MARKDOWN, PARAMETERS, ATTRIBUTES, RETURN, EXCEPTIONS; the MARKDOWN
section is always present (even with empty text), and each of the other
four appears exactly when it has content.  In particular a docstring with
only a description and one exception yields exactly MARKDOWN then
EXCEPTIONS. -/
theorem C4_sections_fixed_order :
    (∀ st : PState, st.vals.description ≠ [] →
      ∃ sections errs, parsedValuesToSections st = some (sections, errs) ∧
        List.Pairwise (fun a b => sectionRank a < sectionRank b) sections ∧
        (∃ t, Section.MARKDOWN t ∈ sections) ∧
        ((∃ p, Section.PARAMETERS p ∈ sections) ↔ st.vals.parameters ≠ []) ∧
        ((∃ a, Section.ATTRIBUTES a ∈ sections) ↔ st.vals.attributes ≠ []) ∧
        ((∃ r, Section.RETURN r ∈ sections) ↔ st.vals.return_value ≠ none) ∧
        ((∃ e, Section.EXCEPTIONS e ∈ sections) ↔ st.vals.exceptions ≠ [])) ∧
    parseSections emptyContext "desc\n:raises E: boom" =
      some ([Section.MARKDOWN "desc", Section.EXCEPTIONS [⟨PyObj.str "E", "boom"⟩]], []) := by
  constructor
  · intro st h
    have hne : st.vals.description.isEmpty = false := by
      cases hd : st.vals.description with
      | nil => exact absurd hd h
      | cons l ls => rfl
    have hd : dedentLines st.vals.description st.errors = some (st.vals.description, st.errors) := by
      simp [dedentLines, hne]
    simp only [parsedValuesToSections, hd]
    refine ⟨_, _, rfl, ?_⟩
    rcases hpl : st.vals.parameters with _ | ⟨p, ps⟩ <;>
      rcases hal : st.vals.attributes with _ | ⟨a1, as⟩ <;>
        rcases hrv : st.vals.return_value with _ | rv <;>
          rcases hel : st.vals.exceptions with _ | ⟨e1, es⟩ <;>
            simp [sectionRank, List.pairwise_cons]
  · rfl

/-- C4 witness: the amended theorem applied at a concrete state holding one
description line and one exception. -/
theorem C4_witness_description_and_exception :
    exampleSectionState.vals.description ≠ [] ∧
    (∃ sections errs, parsedValuesToSections exampleSectionState = some (sections, errs) ∧
      List.Pairwise (fun a b => sectionRank a < sectionRank b) sections ∧
      (∃ t, Section.MARKDOWN t ∈ sections) ∧
      ((∃ p, Section.PARAMETERS p ∈ sections) ↔ exampleSectionState.vals.parameters ≠ []) ∧
      ((∃ a, Section.ATTRIBUTES a ∈ sections) ↔ exampleSectionState.vals.attributes ≠ []) ∧
      ((∃ r, Section.RETURN r ∈ sections) ↔ exampleSectionState.vals.return_value ≠ none) ∧
      ((∃ e, Section.EXCEPTIONS e ∈ sections) ↔ exampleSectionState.vals.exceptions ≠ [])) :=
  ⟨by decide, C4_sections_fixed_order.1 exampleSectionState (by decide)⟩

/-- C10: an attribute directive whose name is absent from the context's
attributes mapping records no error — the returned state keeps the error
list untouched — and the attribute's annotation falls through to the staged
`:vartype:` value when one exists, else the no-annotation sentinel
(`attrAnnotFallback`). -/
theorem C10_attribute_missing_from_context (ctx : ParseContext) (lines : List String)
    (start : Nat) (st : PState) (d : ParsedDirectiveR) (w name : String)
    (hpd : parseDirective lines start st.errors = (DirectiveResult.ok d, st.errors))
    (hparts : d.directive_parts = [w, name])
    (hctx : dictGet ctx.attributes name = none)
    (hdup : dictGet st.vals.attributes name = none) :
    readAttribute ctx lines start st =
      ({ st with vals := { st.vals with attributes := dictSet st.vals.attributes name ⟨name, attrAnnotFallback st.vals name, d.value⟩ } }, d.next_index) := by
  unfold readAttribute
  rw [hpd]
  dsimp only
  rw [hparts]
  dsimp only
  rw [hctx, hdup]
  dsimp only
  unfold attrAnnotFallback
  rfl

/-- C10 witness: a `:var x:` directive with `x` absent from the context's
attributes and a staged `:vartype: x` value `"int"`: no error is recorded
and the attribute annotation falls through to the staged value. -/
theorem C10_witness_staged_vartype_applied :
    parseDirective [":var x: d"] 0 exampleAttrState.errors =
      (DirectiveResult.ok ⟨":var x: d", 0, ["var", "x"], "d"⟩, exampleAttrState.errors) ∧
    dictGet exampleAttrContext.attributes "x" = none ∧
    dictGet exampleAttrState.vals.attributes "x" = none ∧
    readAttribute exampleAttrContext [":var x: d"] 0 exampleAttrState =
      ({ exampleAttrState with vals := { exampleAttrState.vals with attributes := dictSet exampleAttrState.vals.attributes "x" ⟨"x", attrAnnotFallback exampleAttrState.vals "x", "d"⟩ } }, 0) :=
  ⟨rfl, rfl, rfl,
   C10_attribute_missing_from_context exampleAttrContext [":var x: d"] 0 exampleAttrState
     ⟨":var x: d", 0, ["var", "x"], "d"⟩ "var" "x" rfl rfl rfl rfl⟩

end RST
